import Mathlib

/-!
Shallow embedding of the multi-round authentication state engine of
freeradius-server: the state table of `src/main/state.c` and the
TACACS+ per-request driver of `src/modules/proto_tacacs/proto_tacacs.c`.

Pointers (talloc contexts, VALUE_PAIR list heads, request data) are
modelled as numeric handles, so pointer identity becomes equality of
handles.  Machine integers are `Nat` with explicit `% 256` where a C
`uint8_t` store truncates.  The mutex protects a single table; in this
sequential model the lock/unlock pairs have no observable effect, but
the order of operations between them is kept exactly as in the source.
-/

namespace Freeradius

/-- Value carried by a VALUE_PAIR: raw octets, an integer stored through
`vp_uint8`, or an enum name stored through `fr_pair_value_from_str`. -/
inductive VPValue where
  | octets (bytes : List Nat)
  | u8 (v : Nat)
  | str (s : String)
deriving DecidableEq

/-- One VALUE_PAIR: dictionary attribute number plus value. -/
structure VP where
  attr : Nat
  value : VPValue
deriving DecidableEq

/-- RADIUS State attribute number (dictionary not under src/; the number
is irrelevant, only its identity matters). -/
def PW_STATE : Nat := 24

/-- AUTH_VECTOR_LEN from libradius: the State token is 16 octets. -/
def AUTH_VECTOR_LEN : Nat := 16

/-- Raw octets of a value, as `vp_octets`/`vp_length` see them.  Only
octet-valued State attributes reach the state table in the source. -/
def VPValue.asOctets : VPValue → List Nat
  | .octets bs => bs
  | .u8 v => [v % 256]
  | .str _ => []

/-- Read a value as `vp_uint8`.  String enum values are resolved through
the TACACS+ dictionary; the dictionary file is not part of the sources,
so the name-to-number mapping is modelled from the spec (RFC 8907
authentication status values). -/
def VPValue.vp_uint8 : VPValue → Nat
  | .u8 v => v % 256
  | .octets bs => bs.headD 0
  | .str s =>
      if s = "Pass" then 1 else if s = "Fail" then 2
      else if s = "GetData" then 3 else if s = "GetUser" then 4
      else if s = "GetPass" then 5 else if s = "Restart" then 6
      else if s = "Error" then 7 else if s = "Follow" then 33 else 0

/-- A packet is its VALUE_PAIR list. -/
structure Packet where
  vps : List VP
deriving DecidableEq

/-- fr_pair_find_by_num: first pair with the given attribute number. -/
def fr_pair_find_by_num (vps : List VP) (attr : Nat) : Option VP :=
  vps.find? (fun p => p.attr == attr)

/-- fr_state_entry_t: one row of the state table.  `ctx` is the talloc
state context handle, `vps` the session-state VALUE_PAIR list handle,
`data` the persistable request_data chain (list of handles). -/
structure StateEntry where
  id : Nat
  state : List Nat
  cleanup : Nat
  tries : Nat
  ctx : Option Nat
  vps : Option Nat
  data : List Nat
deriving DecidableEq

/-- fr_state_tree_t: the id counter, the bounds, and the expiry list
(head first).  The rbtree holds exactly the listed entries keyed by
their 16-octet token, so it is not represented separately. -/
structure fr_state_tree_t where
  id : Nat
  max_sessions : Nat
  timeout : Nat
  entries : List StateEntry
deriving DecidableEq

/-- fr_state_tree_init: an empty table with the given bounds. -/
def fr_state_tree_init (max_sessions timeout : Nat) : fr_state_tree_t :=
  { id := 0, max_sessions := max_sessions, timeout := timeout, entries := [] }

/-- state_entry_unlink: remove the entry from the expiry list and from the
rbtree.  rbtree_deletebydata locates the node by token comparison, so the
model erases the first entry with the same token. -/
def state_entry_unlink (st : fr_state_tree_t) (e : StateEntry) : fr_state_tree_t :=
  { st with entries := st.entries.eraseP (fun x => x.state == e.state) }

/-- The REQUEST fields handled by the state engine: `state_ctx`,
`state` (session-state VALUE_PAIRs) and the persistable request data. -/
structure Request where
  state_ctx : Option Nat
  state : Option Nat
  data : List Nat
deriving DecidableEq

/-- state_entry_find: look the entry up by the packet's State attribute.
Any value whose length differs from the 16-octet token width is a miss. -/
def state_entry_find (st : fr_state_tree_t) (packet : Packet) : Option StateEntry :=
  match fr_pair_find_by_num packet.vps PW_STATE with
  | none => none
  | some vp =>
      if vp.value.asOctets.length ≠ AUTH_VECTOR_LEN then none
      else st.entries.find? (fun e => e.state == vp.value.asOctets)

/-- The 24-bit HEXIFY(RADIUSD_VERSION) build tag.  The version header is
not under src/; the concrete value never reaches the final token (the
random fill overwrites it), so any constant is faithful. -/
def RADIUSD_VERSION_HEX : Nat := 0x040000

/-- main_config fields the state code reads. -/
structure MainConfig where
  state_seed : Nat
deriving DecidableEq

/-- Pad or truncate to the 16-octet token width (a C memcpy of 16 bytes;
for shorter sources the C reads past the value, modelled as zero fill). -/
def pad16 (l : List Nat) : List Nat :=
  (l ++ List.replicate AUTH_VECTOR_LEN 0).take AUTH_VECTOR_LEN

/-- Store one byte of a token (uint8_t assignment truncates mod 256). -/
def setByte (l : List Nat) (i : Nat) (v : Nat) : List Nat :=
  l.set i (v % 256)

/-- Token generation of state_entry_create when the packet carries no
State attribute (state.c lines 374-404): the attempt / version derived
bytes are written first and are then overwritten wholesale by the
16-octet random fill, exactly as in the source; finally byte 3 is set to
the operator seed when the seed is below 256.  `rand` is the byte stream
produced by the four fr_rand calls. -/
def state_gen_token (cfg : MainConfig) (has_old : Bool) (old_state : List Nat)
    (tries : Nat) (rand : List Nat) : List Nat :=
  let s := if has_old then old_state else List.replicate AUTH_VECTOR_LEN 0
  let s := setByte s 0 tries
  let s := setByte s 1 ((s.getD 0 0) ^^^ tries)
  let s := setByte s 8 ((s.getD 2 0) ^^^ ((RADIUSD_VERSION_HEX / 65536) % 256))
  let s := setByte s 10 ((s.getD 2 0) ^^^ ((RADIUSD_VERSION_HEX / 256) % 256))
  let s := setByte s 12 ((s.getD 2 0) ^^^ (RADIUSD_VERSION_HEX % 256))
  let s := pad16 rand
  if cfg.state_seed < 256 then setByte s 3 cfg.state_seed else s

/-- Result of state_entry_create: the new entry (NULL on failure), the
table afterwards, and the outgoing packet (a State pair is synthesised
on it when the token was generated). -/
structure CreateResult where
  entry : Option StateEntry
  tree : fr_state_tree_t
  packet : Packet
deriving DecidableEq

/-- The reap loop at the head of state_entry_create: unlink every entry
at the head of the expiry list whose cleanup instant is before now. -/
def state_reap (st : fr_state_tree_t) (now : Nat) : fr_state_tree_t :=
  { st with entries := st.entries.dropWhile (fun e => e.cleanup < now) }

/-- Unlink the prior entry when it has no persistable request data left
(state.c lines 303-315; the snapshot of its token and tries is taken by
the caller before this point). -/
def state_drop_old (st : fr_state_tree_t) (old : Option StateEntry) : fr_state_tree_t :=
  match old with
  | some o => if o.data = [] then state_entry_unlink st o else st
  | none => st

/-- The re-locked tail of state_entry_create: re-check the bound, insert
into the rbtree (which fails on a duplicate token), link at the list
tail. -/
def state_tree_insert (st : fr_state_tree_t) (entry : StateEntry) (packet : Packet) :
    CreateResult :=
  if st.max_sessions ≤ st.entries.length then ⟨none, st, packet⟩
  else if st.entries.any (fun e => e.state == entry.state) then ⟨none, st, packet⟩
  else ⟨some entry, { st with entries := st.entries ++ [entry] }, packet⟩

/-- Snapshot of `old->state` taken under the mutex (empty when there is
no prior entry; it is then never read). -/
def old_state_of : Option StateEntry → List Nat
  | some o => o.state
  | none => []

/-- The tries field of the new entry: `old_tries + 1` when a prior entry
existed, else the talloc_zero value 0. -/
def new_tries_of : Option StateEntry → Nat
  | some o => o.tries + 1
  | none => 0

/-- state_entry_create from src/main/state.c.  `now` is the `time(NULL)`
reading, `rand` the bytes produced by fr_rand, `alloc_ok` whether
talloc_zero succeeds.  The mutex release before the bulk free and the
reacquire before insertion have no observable effect sequentially. -/
def state_entry_create (cfg : MainConfig) (st : fr_state_tree_t) (packet : Packet)
    (old : Option StateEntry) (now : Nat) (rand : List Nat) (alloc_ok : Bool) :
    CreateResult :=
  let st1 := state_reap st now
  if st1.max_sessions ≤ st1.entries.length then ⟨none, st1, packet⟩
  else
    let st2 := state_drop_old st1 old
    if alloc_ok then
      let st3 := { st2 with id := st2.id + 1 }
      match fr_pair_find_by_num packet.vps PW_STATE with
      | some vp =>
          let entry : StateEntry :=
            { id := st2.id, state := pad16 vp.value.asOctets,
              cleanup := now + st3.timeout, tries := 0,
              ctx := none, vps := none, data := [] }
          state_tree_insert st3 entry packet
      | none =>
          let tries := new_tries_of old
          let tok := state_gen_token cfg old.isSome (old_state_of old) tries rand
          let entry : StateEntry :=
            { id := st2.id, state := tok, cleanup := now + st3.timeout, tries := tries,
              ctx := none, vps := none, data := [] }
          state_tree_insert st3 entry
            { packet with vps := packet.vps ++ [⟨PW_STATE, .octets tok⟩] }
    else ⟨none, st2, packet⟩

/-- Result of fr_state_discard. -/
structure DiscardResult where
  tree : fr_state_tree_t
  request : Request
deriving DecidableEq

/-- fr_state_discard: find the entry named by the original packet's
token, unlink and free it, null the request's state fields.  A miss
returns with nothing changed. -/
def fr_state_discard (st : fr_state_tree_t) (request : Request) (original : Packet) :
    DiscardResult :=
  match state_entry_find st original with
  | none => ⟨st, request⟩
  | some entry =>
      ⟨state_entry_unlink st entry, { request with state := none, state_ctx := none }⟩

/-- Result of fr_state_to_request. -/
structure RestoreResult where
  tree : fr_state_tree_t
  request : Request
deriving DecidableEq

/-- fr_state_to_request: move the entry's ctx, VALUE_PAIRs and request
data into the request and null the entry's fields, leaving the entry
table-resident.  `reqPacket` is `request->packet` (only its State
presence is checked); `packet` is the lookup argument.  A prior state
ctx on the request is freed after unlocking (the handle is dropped). -/
def fr_state_to_request (st : fr_state_tree_t) (request : Request)
    (reqPacket packet : Packet) : RestoreResult :=
  match fr_pair_find_by_num reqPacket.vps PW_STATE with
  | none => ⟨st, request⟩
  | some _ =>
      match state_entry_find st packet with
      | none => ⟨st, request⟩
      | some entry =>
          let request := { request with
            state_ctx := entry.ctx, state := entry.vps,
            data := request.data ++ entry.data }
          let cleared := st.entries.map (fun e =>
            if e.state == entry.state
            then { e with ctx := none, vps := none, data := ([] : List Nat) }
            else e)
          ⟨{ st with entries := cleared }, request⟩

/-- Result of fr_request_to_state. -/
structure SaveResult where
  ok : Bool
  tree : fr_state_tree_t
  request : Request
  packet : Packet
deriving DecidableEq

/-- The prior-entry lookup of fr_request_to_state: the C ternary
`original ? state_entry_find(state, original) : NULL`. -/
def find_original (st : fr_state_tree_t) : Option Packet → Option StateEntry
  | some orig => state_entry_find st orig
  | none => none

/-- fr_request_to_state: extract the persistable request data, return
true at once when the request carries session-state pairs but no such
data, otherwise locate the prior entry from the original packet, create
a new entry and move the request's state ctx, pairs and data into it.
The freshly inserted entry is the list tail, updated in place. -/
def fr_request_to_state (cfg : MainConfig) (st : fr_state_tree_t) (request : Request)
    (original : Option Packet) (packet : Packet) (now : Nat) (rand : List Nat)
    (alloc_ok : Bool) : SaveResult :=
  let data := request.data
  let request := { request with data := ([] : List Nat) }
  if request.state.isSome ∧ data = [] then ⟨true, st, request, packet⟩
  else
    let old := find_original st original
    let res := state_entry_create cfg st packet old now rand alloc_ok
    match res.entry with
    | none => ⟨false, res.tree, request, res.packet⟩
    | some entry =>
        let entry := { entry with
          ctx := request.state_ctx, vps := request.state, data := data }
        ⟨true,
         { res.tree with entries := res.tree.entries.dropLast ++ [entry] },
         { request with state_ctx := none, state := none },
         res.packet⟩

/-- A packet holding exactly one State pair. -/
def mkStatePacket (tok : List Nat) : Packet :=
  ⟨[⟨PW_STATE, .octets tok⟩]⟩

/-! The TACACS+ per-request driver (proto_tacacs.c).  The TACACS+
dictionary and tacacs.h are not under src/, so the attribute numbers and
the tacacs_authen_reply_status_t values are modelled from the spec
(RFC 8907); the claims below depend only on their distinctness and on
which values the source treats as terminal. -/

/-- TACACS-Authentication-Status attribute (modelled number). -/
def attr_tacacs_authentication_status : Nat := 101

/-- TACACS-Authorization-Status attribute (modelled number). -/
def attr_tacacs_authorization_status : Nat := 102

/-- TACACS-Accounting-Status attribute (modelled number). -/
def attr_tacacs_accounting_status : Nat := 103

/-- TACACS-Sequence-Number attribute (modelled number). -/
def attr_tacacs_sequence_number : Nat := 104

def TAC_PLUS_AUTHEN_STATUS_PASS : Nat := 1
def TAC_PLUS_AUTHEN_STATUS_FAIL : Nat := 2
def TAC_PLUS_AUTHEN_STATUS_GETDATA : Nat := 3
def TAC_PLUS_AUTHEN_STATUS_GETUSER : Nat := 4
def TAC_PLUS_AUTHEN_STATUS_GETPASS : Nat := 5
def TAC_PLUS_AUTHEN_STATUS_RESTART : Nat := 6
def TAC_PLUS_AUTHEN_STATUS_ERROR : Nat := 7
def TAC_PLUS_AUTHEN_STATUS_FOLLOW : Nat := 33

/-- The three TACACS+ sub-protocols (tacacs_type). -/
inductive TacacsType where
  | authen | author | acct
deriving DecidableEq

/-- The interpreter return codes (rlm_rcode_t values the driver handles). -/
inductive Rcode where
  | ok | fail | reject | userlock | invalid | handled | noop | notfound | updated | yield
deriving DecidableEq

/-- pair_update_reply: update the value of the first pair with this
attribute, or append a new pair when none exists. -/
def pair_update_reply (vps : List VP) (attr : Nat) (v : VPValue) : List VP :=
  match vps with
  | [] => [⟨attr, v⟩]
  | p :: rest =>
      if p.attr = attr then ⟨attr, v⟩ :: rest
      else p :: pair_update_reply rest attr v

/-- tacacs_status from proto_tacacs.c: stamp the protocol status
attribute on the reply according to the interpreter return code.  Enum
values are stored as fr_pair_value_from_str stores them.  HANDLED (for
authentication) and every unlisted code leave the reply alone. -/
def tacacs_status (ptype : TacacsType) (rcode : Rcode) (reply : List VP) : List VP :=
  match ptype with
  | .authen =>
      match rcode with
      | .ok => pair_update_reply reply attr_tacacs_authentication_status (.str "Pass")
      | .fail | .reject | .userlock =>
          pair_update_reply reply attr_tacacs_authentication_status (.str "Fail")
      | .invalid => pair_update_reply reply attr_tacacs_authentication_status (.str "Error")
      | _ => reply
  | .author =>
      match rcode with
      | .ok => pair_update_reply reply attr_tacacs_authorization_status (.str "Pass-Repl")
      | .fail | .reject | .userlock =>
          pair_update_reply reply attr_tacacs_authorization_status (.str "Fail")
      | .invalid => pair_update_reply reply attr_tacacs_authorization_status (.str "Error")
      | _ => reply
  | .acct =>
      match rcode with
      | .ok => pair_update_reply reply attr_tacacs_accounting_status (.str "Success")
      | .fail | .reject | .userlock | .invalid =>
          pair_update_reply reply attr_tacacs_accounting_status (.str "Error")
      | _ => reply

/-- Outcome of one resumption in the REQUEST_PROCESS arm. -/
inductive ProcessOutcome where
  | stopped
  | suspended
  | toSend (reply : List VP)
deriving DecidableEq

/-- The REQUEST_PROCESS arm of tacacs_running (proto_tacacs.c lines
375-409): act on the interpreter return code after the process section
ran.  `stop` is `master_state == REQUEST_STOP_PROCESSING` (checked
before the yield test; the discard done on stop is not needed here).
OK stamps Pass, HANDLED keeps the reply, every other code stamps Fail
through tacacs_status, then control reaches setup_send. -/
def request_process_step (ptype : TacacsType) (stop : Bool) (rcode : Rcode)
    (reply : List VP) : ProcessOutcome :=
  if stop then .stopped
  else if rcode = .yield then .suspended
  else
    match rcode with
    | .ok => .toSend (tacacs_status ptype .ok reply)
    | .handled => .toSend reply
    | _ => .toSend (tacacs_status ptype .fail reply)

/-- Little-endian byte decomposition, `n` bytes. -/
def natToBytes : Nat → Nat → List Nat
  | 0, _ => []
  | n + 1, x => (x % 256) :: natToBytes n (x / 256)

/-- state_add from proto_tacacs.c: the synthesised outbound State value,
a zeroed 16-byte buffer with the 8 listener-pointer bytes at the front
and the 4 session-id bytes at the tail. -/
def state_add_token (listener session_id : Nat) : List Nat :=
  natToBytes 8 listener ++ [0, 0, 0, 0] ++ natToBytes 4 session_id

/-- The State pair state_add appends to the packet. -/
def state_add_vp (listener session_id : Nat) : VP :=
  ⟨PW_STATE, .octets (state_add_token listener session_id)⟩

/-- Result of the send-phase state disposition.  `warned` records the
sequence-wrap RWARN; `aborted` records the missing-sequence-number
`goto done` (no reply is sent on that path). -/
structure SendResult where
  tree : fr_state_tree_t
  request : Request
  reply : Packet
  warned : Bool
  aborted : Bool
deriving DecidableEq

/-- The authentication state disposition in the send_reply block of
tacacs_running (proto_tacacs.c lines 437-474).  For TAC_PLUS_AUTHEN
replies: a terminal or absent status discards the table entry; a
continuation status needs the inbound sequence number; at 253 the
machine warns, discards, frees the reply list and stamps RESTART;
otherwise it appends a fresh State pair and saves to the table. -/
def tacacs_send_state_disposition (cfg : MainConfig) (ptype : TacacsType)
    (st : fr_state_tree_t) (request : Request) (reqPacket reply : Packet)
    (listener session_id : Nat) (now : Nat) (rand : List Nat) (alloc_ok : Bool) :
    SendResult :=
  if ptype = .authen then
    match fr_pair_find_by_num reply.vps attr_tacacs_authentication_status with
    | none =>
        let d := fr_state_discard st request reqPacket
        ⟨d.tree, d.request, reply, false, false⟩
    | some vp =>
        let s := vp.value.vp_uint8
        if s = TAC_PLUS_AUTHEN_STATUS_PASS ∨ s = TAC_PLUS_AUTHEN_STATUS_FAIL ∨
           s = TAC_PLUS_AUTHEN_STATUS_RESTART ∨ s = TAC_PLUS_AUTHEN_STATUS_ERROR ∨
           s = TAC_PLUS_AUTHEN_STATUS_FOLLOW then
          let d := fr_state_discard st request reqPacket
          ⟨d.tree, d.request, reply, false, false⟩
        else
          match fr_pair_find_by_num reqPacket.vps attr_tacacs_sequence_number with
          | none => ⟨st, request, reply, false, true⟩
          | some sv =>
              if sv.value.vp_uint8 = 253 then
                let d := fr_state_discard st request reqPacket
                let restarted := pair_update_reply ([] : List VP)
                  attr_tacacs_authentication_status (.u8 TAC_PLUS_AUTHEN_STATUS_RESTART)
                ⟨d.tree, d.request, ⟨restarted⟩, true, false⟩
              else
                let outbound : Packet :=
                  ⟨reply.vps ++ [state_add_vp listener session_id]⟩
                let sres := fr_request_to_state cfg st request (some reqPacket)
                  outbound now rand alloc_ok
                ⟨sres.tree, sres.request, sres.packet, false, false⟩
  else ⟨st, request, reply, false, false⟩

/-! Operation sequences over one table, for the expiry-order invariant. -/

/-- A request carrying nothing, for operations that ignore it. -/
def emptyRequest : Request := ⟨none, none, []⟩

/-- One hand-off operation against the table, at the level
fr_request_to_state / fr_state_discard drive it: a create locates the
prior entry from the original packet (when given) and runs
state_entry_create at the clock reading `now`; a discard unlinks the
entry named by the packet's token. -/
inductive StateOp where
  | createOp (packet : Packet) (original : Option Packet) (now : Nat)
      (rand : List Nat) (alloc_ok : Bool)
  | discardOp (packet : Packet)
deriving DecidableEq

/-- Apply one operation to the table. -/
def runOp (cfg : MainConfig) (st : fr_state_tree_t) : StateOp → fr_state_tree_t
  | .createOp p o now rand ok =>
      (state_entry_create cfg st p (find_original st o) now rand ok).tree
  | .discardOp p => (fr_state_discard st emptyRequest p).tree

/-- Apply a sequence of operations, first operation first. -/
def runOps (cfg : MainConfig) : fr_state_tree_t → List StateOp → fr_state_tree_t
  | st, [] => st
  | st, op :: rest => runOps cfg (runOp cfg st op) rest

/-- The clock readings of the creates are at least `t` and
non-decreasing along the sequence (the wall clock never runs backward). -/
def opsMonoFrom : Nat → List StateOp → Bool
  | _, [] => true
  | t, .createOp _ _ now _ _ :: rest => decide (t ≤ now) && opsMonoFrom now rest
  | t, .discardOp _ :: rest => opsMonoFrom t rest

/-- The expiry list is non-decreasing in cleanup time. -/
def cleanupSorted (l : List StateEntry) : Prop :=
  l.Pairwise (fun a b => a.cleanup ≤ b.cleanup)

instance (l : List StateEntry) : Decidable (cleanupSorted l) := by
  unfold cleanupSorted; infer_instance

/-- Every cleanup instant is at most `t` plus the table timeout (holds
whenever every entry was created at a clock reading at most `t`). -/
def cleanupBounded (st : fr_state_tree_t) (t : Nat) : Prop :=
  ∀ e ∈ st.entries, e.cleanup ≤ t + st.timeout

/-- No two table-resident entries share a token (the rbtree is keyed by
the token and refuses duplicates). -/
def tokensNodup (st : fr_state_tree_t) : Prop :=
  (st.entries.map (fun e => e.state)).Nodup

instance (st : fr_state_tree_t) : Decidable (tokensNodup st) := by
  unfold tokensNodup; infer_instance

/-! Helper lemmas about the embedded operations. -/

theorem pad16_length (l : List Nat) : (pad16 l).length = AUTH_VECTOR_LEN := by
  simp [pad16, AUTH_VECTOR_LEN]

theorem pad16_of_length (l : List Nat) (h : l.length = AUTH_VECTOR_LEN) :
    pad16 l = l := by
  simp [pad16, List.take_append_of_le_length (le_of_eq h.symm), h]

theorem setByte_length (l : List Nat) (i v : Nat) :
    (setByte l i v).length = l.length := by
  simp [setByte]

/-- The derived bytes of state_gen_token are dead stores: the final token
is the random fill, with byte 3 replaced by the seed when it is set. -/
theorem state_gen_token_eq (cfg : MainConfig) (has_old : Bool) (old_state : List Nat)
    (tries : Nat) (rand : List Nat) :
    state_gen_token cfg has_old old_state tries rand =
      if cfg.state_seed < 256 then setByte (pad16 rand) 3 cfg.state_seed
      else pad16 rand := rfl

theorem state_gen_token_length (cfg : MainConfig) (has_old : Bool)
    (old_state : List Nat) (tries : Nat) (rand : List Nat) :
    (state_gen_token cfg has_old old_state tries rand).length = AUTH_VECTOR_LEN := by
  rw [state_gen_token_eq]
  split
  · rw [setByte_length, pad16_length]
  · exact pad16_length rand

theorem dropWhile_eq_self_of_forall {α} (l : List α) (p : α → Bool)
    (h : ∀ x ∈ l, p x = false) : l.dropWhile p = l := by
  cases l with
  | nil => rfl
  | cons a t => simp [List.dropWhile_cons, h a (by simp)]

theorem state_reap_entries (st : fr_state_tree_t) (now : Nat) :
    (state_reap st now).entries = st.entries.dropWhile (fun e => e.cleanup < now) := rfl

theorem state_reap_sublist (st : fr_state_tree_t) (now : Nat) :
    (state_reap st now).entries.Sublist st.entries :=
  List.dropWhile_sublist _

theorem state_drop_old_sublist (st : fr_state_tree_t) (old : Option StateEntry) :
    (state_drop_old st old).entries.Sublist st.entries := by
  cases old with
  | none => exact List.Sublist.refl _
  | some o =>
      simp only [state_drop_old]
      split
      · exact List.eraseP_sublist _
      · exact List.Sublist.refl _

theorem state_drop_old_fields (st : fr_state_tree_t) (old : Option StateEntry) :
    (state_drop_old st old).id = st.id ∧
    (state_drop_old st old).max_sessions = st.max_sessions ∧
    (state_drop_old st old).timeout = st.timeout := by
  cases old with
  | none => exact ⟨rfl, rfl, rfl⟩
  | some o =>
      simp only [state_drop_old]
      split <;> exact ⟨rfl, rfl, rfl⟩

/-- Field preservation across the reap and prior-unlink phases. -/
theorem reap_drop_fields (st : fr_state_tree_t) (now : Nat) (old : Option StateEntry) :
    (state_drop_old (state_reap st now) old).id = st.id ∧
    (state_drop_old (state_reap st now) old).max_sessions = st.max_sessions ∧
    (state_drop_old (state_reap st now) old).timeout = st.timeout := by
  obtain ⟨a, b, c⟩ := state_drop_old_fields (state_reap st now) old
  exact ⟨a.trans rfl, b.trans rfl, c.trans rfl⟩

/-- On a cleanup-sorted list, the reap loop removes every expired entry:
whatever it leaves has not expired. -/
theorem sorted_dropWhile_cleanup (l : List StateEntry) (now : Nat)
    (hs : cleanupSorted l) :
    ∀ e ∈ l.dropWhile (fun x => x.cleanup < now), ¬ e.cleanup < now := by
  induction l with
  | nil => simp
  | cons a t ih =>
      rw [cleanupSorted, List.pairwise_cons] at hs
      by_cases ha : a.cleanup < now
      · rw [List.dropWhile_cons, if_pos (by simpa using ha)]
        exact ih hs.2
      · rw [List.dropWhile_cons, if_neg (by simpa using ha)]
        intro e he
        rcases List.mem_cons.mp he with rfl | het
        · exact ha
        · have := hs.1 e het
          omega

/-- find? hits the appended element when nothing before it matches. -/
theorem find?_append_last {α} (l : List α) (a : α) (p : α → Bool)
    (hl : ∀ x ∈ l, p x = false) (ha : p a = true) :
    (l ++ [a]).find? p = some a := by
  induction l with
  | nil => simp [List.find?, ha]
  | cons h t ih =>
      rw [List.cons_append, List.find?_cons, hl h (by simp)]
      exact ih (fun x hx => hl x (by simp [hx]))

/-- After erasing the (unique, by token nodup) entry with token `t`, no
entry with token `t` remains. -/
theorem eraseP_token_not_mem (l : List StateEntry) (t : List Nat)
    (hnd : (l.map (fun e => e.state)).Nodup) :
    ∀ e ∈ l.eraseP (fun x => x.state == t), e.state ≠ t := by
  induction l with
  | nil => simp
  | cons a tl ih =>
      rw [List.map_cons, List.nodup_cons] at hnd
      by_cases ha : a.state = t
      · rw [List.eraseP_cons, beq_iff_eq.mpr ha, cond_true]
        intro e he het
        exact hnd.1 (List.mem_map.mpr ⟨e, he, by rw [het, ha]⟩)
      · rw [List.eraseP_cons, beq_eq_false_iff_ne.mpr ha, cond_false]
        intro e he
        rcases List.mem_cons.mp he with rfl | het
        · exact ha
        · exact ih hnd.2 e het

/-- state_tree_insert either fails leaving the table alone, or succeeds
appending the entry at the tail, the token being fresh. -/
theorem state_tree_insert_cases (st : fr_state_tree_t) (entry : StateEntry) (p : Packet) :
    state_tree_insert st entry p = ⟨none, st, p⟩ ∨
    (state_tree_insert st entry p =
        ⟨some entry, { st with entries := st.entries ++ [entry] }, p⟩ ∧
      (∀ x ∈ st.entries, ¬ x.state = entry.state) ∧
      st.entries.length < st.max_sessions) := by
  unfold state_tree_insert
  split
  · exact Or.inl rfl
  · split
    · exact Or.inl rfl
    · rename_i h1 h2
      refine Or.inr ⟨rfl, ?_, by omega⟩
      intro x hx hxe
      exact h2 (List.any_eq_true.mpr ⟨x, hx, by simp [hxe]⟩)

/-! Equation lemmas for the control-flow cases of state_entry_create. -/

theorem state_entry_create_full (cfg : MainConfig) (st : fr_state_tree_t)
    (packet : Packet) (old : Option StateEntry) (now : Nat) (rand : List Nat)
    (ok_ : Bool)
    (h1 : (state_reap st now).max_sessions ≤ (state_reap st now).entries.length) :
    state_entry_create cfg st packet old now rand ok_ =
      ⟨none, state_reap st now, packet⟩ := by
  simp only [state_entry_create]
  rw [if_pos h1]

theorem state_entry_create_alloc_fail (cfg : MainConfig) (st : fr_state_tree_t)
    (packet : Packet) (old : Option StateEntry) (now : Nat) (rand : List Nat)
    (h1 : ¬ (state_reap st now).max_sessions ≤ (state_reap st now).entries.length) :
    state_entry_create cfg st packet old now rand false =
      ⟨none, state_drop_old (state_reap st now) old, packet⟩ := by
  simp only [state_entry_create]
  rw [if_neg h1]
  rfl

theorem state_entry_create_go_supplied (cfg : MainConfig) (st : fr_state_tree_t)
    (packet : Packet) (old : Option StateEntry) (now : Nat) (rand : List Nat)
    (vp : VP)
    (h1 : ¬ (state_reap st now).max_sessions ≤ (state_reap st now).entries.length)
    (hvp : fr_pair_find_by_num packet.vps PW_STATE = some vp) :
    state_entry_create cfg st packet old now rand true =
      state_tree_insert
        { state_drop_old (state_reap st now) old with
          id := (state_drop_old (state_reap st now) old).id + 1 }
        { id := (state_drop_old (state_reap st now) old).id,
          state := pad16 vp.value.asOctets,
          cleanup := now + (state_drop_old (state_reap st now) old).timeout,
          tries := 0, ctx := none, vps := none, data := [] }
        packet := by
  simp only [state_entry_create]
  rw [if_neg h1, hvp]
  rfl

theorem state_entry_create_go_gen (cfg : MainConfig) (st : fr_state_tree_t)
    (packet : Packet) (old : Option StateEntry) (now : Nat) (rand : List Nat)
    (h1 : ¬ (state_reap st now).max_sessions ≤ (state_reap st now).entries.length)
    (hvp : fr_pair_find_by_num packet.vps PW_STATE = none) :
    state_entry_create cfg st packet old now rand true =
      state_tree_insert
        { state_drop_old (state_reap st now) old with
          id := (state_drop_old (state_reap st now) old).id + 1 }
        { id := (state_drop_old (state_reap st now) old).id,
          state := state_gen_token cfg old.isSome (old_state_of old) (new_tries_of old) rand,
          cleanup := now + (state_drop_old (state_reap st now) old).timeout,
          tries := new_tries_of old, ctx := none, vps := none, data := [] }
        ⟨packet.vps ++ [⟨PW_STATE, .octets (state_gen_token cfg old.isSome
            (old_state_of old) (new_tries_of old) rand)⟩]⟩ := by
  simp only [state_entry_create]
  rw [if_neg h1, hvp]
  rfl

/-- Shape of a successful state_entry_create: the id counter was bumped,
the surviving earlier entries `pre` are a sublist of the original list,
the new entry sits at the tail with a token fresh among them, null
payload fields and a full-width token expiring at now + timeout. -/
theorem state_entry_create_some_shape (cfg : MainConfig) (st : fr_state_tree_t)
    (packet : Packet) (old : Option StateEntry) (now : Nat) (rand : List Nat)
    (ok_ : Bool) (e : StateEntry)
    (h : (state_entry_create cfg st packet old now rand ok_).entry = some e) :
    ∃ pre, (state_entry_create cfg st packet old now rand ok_).tree =
        ⟨st.id + 1, st.max_sessions, st.timeout, pre ++ [e]⟩ ∧
      pre.Sublist st.entries ∧ (∀ x ∈ pre, ¬ x.state = e.state) ∧
      pre.length < st.max_sessions ∧
      e.ctx = none ∧ e.vps = none ∧ e.data = [] ∧
      e.cleanup = now + st.timeout ∧ e.state.length = AUTH_VECTOR_LEN ∧
      e.id = st.id := by
  have hsub2 : (state_drop_old (state_reap st now) old).entries.Sublist st.entries :=
    (state_drop_old_sublist _ _).trans (state_reap_sublist st now)
  obtain ⟨hid2, hmax2, hto2⟩ := reap_drop_fields st now old
  by_cases h1 : (state_reap st now).max_sessions ≤ (state_reap st now).entries.length
  · rw [state_entry_create_full cfg st packet old now rand ok_ h1] at h
    exact absurd h (by simp)
  · cases ok_ with
    | false =>
        rw [state_entry_create_alloc_fail cfg st packet old now rand h1] at h
        exact absurd h (by simp)
    | true =>
        cases hvp : fr_pair_find_by_num packet.vps PW_STATE with
        | some vp =>
            rw [state_entry_create_go_supplied cfg st packet old now rand vp h1 hvp] at h ⊢
            rcases state_tree_insert_cases _ _ _ with hcase | ⟨hcase, hfresh, hroom⟩ <;>
              rw [hcase] at h ⊢
            · exact absurd h (by simp)
            · simp only [Option.some.injEq] at h
              subst h
              refine ⟨(state_drop_old (state_reap st now) old).entries,
                ?_, hsub2, hfresh, ?_, rfl, rfl, rfl, by simp [hto2],
                pad16_length _, by simp [hid2]⟩
              · simp [hid2, hmax2, hto2]
              · simpa [hmax2] using hroom
        | none =>
            rw [state_entry_create_go_gen cfg st packet old now rand h1 hvp] at h ⊢
            rcases state_tree_insert_cases _ _ _ with hcase | ⟨hcase, hfresh, hroom⟩ <;>
              rw [hcase] at h ⊢
            · exact absurd h (by simp)
            · simp only [Option.some.injEq] at h
              subst h
              refine ⟨(state_drop_old (state_reap st now) old).entries,
                ?_, hsub2, hfresh, ?_, rfl, rfl, rfl, by simp [hto2],
                state_gen_token_length cfg old.isSome (old_state_of old)
                  (new_tries_of old) rand, by simp [hid2]⟩
              · simp [hid2, hmax2, hto2]
              · simpa [hmax2] using hroom

/-- Whenever state_entry_create fails, the table it leaves behind is the
reaped expiry list, possibly with the data-less prior entry unlinked as
well, and the configured bounds are untouched. -/
theorem state_entry_create_none_shape (cfg : MainConfig) (st : fr_state_tree_t)
    (packet : Packet) (old : Option StateEntry) (now : Nat) (rand : List Nat)
    (ok_ : Bool)
    (h : (state_entry_create cfg st packet old now rand ok_).entry = none) :
    ((state_entry_create cfg st packet old now rand ok_).tree.entries =
        (state_reap st now).entries ∨
     (state_entry_create cfg st packet old now rand ok_).tree.entries =
        (state_drop_old (state_reap st now) old).entries) ∧
    (state_entry_create cfg st packet old now rand ok_).tree.timeout = st.timeout ∧
    (state_entry_create cfg st packet old now rand ok_).tree.max_sessions =
      st.max_sessions := by
  obtain ⟨hid2, hmax2, hto2⟩ := reap_drop_fields st now old
  by_cases h1 : (state_reap st now).max_sessions ≤ (state_reap st now).entries.length
  · rw [state_entry_create_full cfg st packet old now rand ok_ h1]
    exact ⟨Or.inl rfl, rfl, rfl⟩
  · cases ok_ with
    | false =>
        rw [state_entry_create_alloc_fail cfg st packet old now rand h1]
        exact ⟨Or.inr rfl, hto2, hmax2⟩
    | true =>
        cases hvp : fr_pair_find_by_num packet.vps PW_STATE with
        | some vp =>
            rw [state_entry_create_go_supplied cfg st packet old now rand vp h1 hvp] at h ⊢
            rcases state_tree_insert_cases _ _ _ with hcase | ⟨hcase, hfresh, hroom⟩ <;>
              rw [hcase] at h ⊢
            · exact ⟨Or.inr rfl, hto2, hmax2⟩
            · exact absurd h (by simp)
        | none =>
            rw [state_entry_create_go_gen cfg st packet old now rand h1 hvp] at h ⊢
            rcases state_tree_insert_cases _ _ _ with hcase | ⟨hcase, hfresh, hroom⟩ <;>
              rw [hcase] at h ⊢
            · exact ⟨Or.inr rfl, hto2, hmax2⟩
            · exact absurd h (by simp)

/-- When the failure happens after the first capacity check passed, the
data-less prior entry has been unlinked: the remaining entries are
exactly those of the reaped list with the prior dropped. -/
theorem state_entry_create_none_after_first (cfg : MainConfig) (st : fr_state_tree_t)
    (packet : Packet) (old : Option StateEntry) (now : Nat) (rand : List Nat)
    (ok_ : Bool)
    (h1 : ¬ (state_reap st now).max_sessions ≤ (state_reap st now).entries.length)
    (h : (state_entry_create cfg st packet old now rand ok_).entry = none) :
    (state_entry_create cfg st packet old now rand ok_).tree.entries =
      (state_drop_old (state_reap st now) old).entries := by
  cases ok_ with
  | false => rw [state_entry_create_alloc_fail cfg st packet old now rand h1]
  | true =>
      cases hvp : fr_pair_find_by_num packet.vps PW_STATE with
      | some vp =>
          rw [state_entry_create_go_supplied cfg st packet old now rand vp h1 hvp] at h ⊢
          rcases state_tree_insert_cases _ _ _ with hcase | ⟨hcase, hfresh, hroom⟩
          · rw [hcase]
          · rw [hcase] at h
            exact absurd h (by simp)
      | none =>
          rw [state_entry_create_go_gen cfg st packet old now rand h1 hvp] at h ⊢
          rcases state_tree_insert_cases _ _ _ with hcase | ⟨hcase, hfresh, hroom⟩
          · rw [hcase]
          · rw [hcase] at h
            exact absurd h (by simp)

/-- Any outcome of state_entry_create: a sublist of the original entries,
with at most one new entry appended at the tail, expiring at
now + timeout; the bounds are untouched. -/
theorem state_entry_create_tree_cases (cfg : MainConfig) (st : fr_state_tree_t)
    (packet : Packet) (old : Option StateEntry) (now : Nat) (rand : List Nat)
    (ok_ : Bool) :
    ∃ mid, mid.Sublist st.entries ∧
      ((state_entry_create cfg st packet old now rand ok_).tree.entries = mid ∨
       ∃ e, (state_entry_create cfg st packet old now rand ok_).tree.entries =
            mid ++ [e] ∧ e.cleanup = now + st.timeout) ∧
      (state_entry_create cfg st packet old now rand ok_).tree.timeout = st.timeout ∧
      (state_entry_create cfg st packet old now rand ok_).tree.max_sessions =
        st.max_sessions := by
  cases hres : (state_entry_create cfg st packet old now rand ok_).entry with
  | none =>
      obtain ⟨hcases, hto, hmax⟩ :=
        state_entry_create_none_shape cfg st packet old now rand ok_ hres
      rcases hcases with hc | hc
      · exact ⟨(state_reap st now).entries, state_reap_sublist st now,
          Or.inl hc, hto, hmax⟩
      · exact ⟨(state_drop_old (state_reap st now) old).entries,
          (state_drop_old_sublist _ _).trans (state_reap_sublist st now),
          Or.inl hc, hto, hmax⟩
  | some e =>
      obtain ⟨pre, htree, hsub, hfresh, hlen, hrest⟩ :=
        state_entry_create_some_shape cfg st packet old now rand ok_ e hres
      refine ⟨pre, hsub, Or.inr ⟨e, by rw [htree], hrest.2.2.2.1⟩, by rw [htree],
        by rw [htree]⟩

/-- fr_state_discard leaves a sublist of the entries and the bounds
untouched. -/
theorem fr_state_discard_tree (st : fr_state_tree_t) (request : Request) (p : Packet) :
    (fr_state_discard st request p).tree.entries.Sublist st.entries ∧
    (fr_state_discard st request p).tree.timeout = st.timeout ∧
    (fr_state_discard st request p).tree.max_sessions = st.max_sessions := by
  unfold fr_state_discard
  cases state_entry_find st p with
  | none => exact ⟨List.Sublist.refl _, rfl, rfl⟩
  | some e => exact ⟨List.eraseP_sublist _, rfl, rfl⟩

theorem pad16_of_ge (l : List Nat) (h : AUTH_VECTOR_LEN ≤ l.length) :
    pad16 l = l.take AUTH_VECTOR_LEN := by
  simp [pad16, List.take_append_of_le_length h]

/-! Claim C2. -/

/-- The token generation C2 describes: random fill first, the attempt
and version derived bytes written on top of it (so they survive), then
the seed byte.  Follows the spec's words, for comparison with the
source-derived state_gen_token. -/
def claimed_token_C2 (cfg : MainConfig) (tries : Nat) (rand : List Nat) : List Nat :=
  let s := pad16 rand
  let s := setByte s 0 tries
  let s := setByte s 1 ((s.getD 0 0) ^^^ tries)
  let s := setByte s 8 ((s.getD 2 0) ^^^ ((RADIUSD_VERSION_HEX / 65536) % 256))
  let s := setByte s 10 ((s.getD 2 0) ^^^ ((RADIUSD_VERSION_HEX / 256) % 256))
  let s := setByte s 12 ((s.getD 2 0) ^^^ (RADIUSD_VERSION_HEX % 256))
  if cfg.state_seed < 256 then setByte s 3 cfg.state_seed else s

/-- C2 counterexample: at attempt counter 0, random bytes all 85 and seed
unset, the token state_entry_create stores is the plain random fill; the
claimed derivation would instead leave the attempt counter 0 in byte 0.
The derived bytes do not survive: the random fill is written after them. -/
theorem C2_counterexample :
    ((state_entry_create ⟨300⟩ (fr_state_tree_init 2 60) ⟨[]⟩ none 5
        (List.replicate 16 85) true).entry.map (fun e => e.state)) =
      some (List.replicate 16 85) ∧
    claimed_token_C2 ⟨300⟩ 0 (List.replicate 16 85) ≠ List.replicate 16 85 :=
  ⟨by decide, by decide⟩

/-- C2 amended: when create generates the token (no caller-supplied State
attribute), the derived bytes are written first and the 16-octet random
fill then overwrites all of them, so the stored token is the random fill
with byte 3 replaced by the operator seed when the seed is below 256. -/
theorem C2_amended (cfg : MainConfig) (st : fr_state_tree_t) (packet : Packet)
    (old : Option StateEntry) (now : Nat) (rand : List Nat) (ok_ : Bool)
    (e : StateEntry)
    (hnovp : fr_pair_find_by_num packet.vps PW_STATE = none)
    (he : (state_entry_create cfg st packet old now rand ok_).entry = some e) :
    e.state = if cfg.state_seed < 256 then setByte (pad16 rand) 3 cfg.state_seed
              else pad16 rand := by
  by_cases h1 : (state_reap st now).max_sessions ≤ (state_reap st now).entries.length
  · rw [state_entry_create_full cfg st packet old now rand ok_ h1] at he
    exact absurd he (by simp)
  · cases ok_ with
    | false =>
        rw [state_entry_create_alloc_fail cfg st packet old now rand h1] at he
        exact absurd he (by simp)
    | true =>
        rw [state_entry_create_go_gen cfg st packet old now rand h1 hnovp] at he
        rcases state_tree_insert_cases _ _ _ with hcase | ⟨hcase, hfresh, hroom⟩ <;>
          rw [hcase] at he
        · exact absurd he (by simp)
        · simp only [Option.some.injEq] at he
          subst he
          simp [state_gen_token_eq]

/-- C2 amended, witnessed at seed 7 and random bytes all 85. -/
theorem C2_amended_witness :
    ([85, 85, 85, 7, 85, 85, 85, 85, 85, 85, 85, 85, 85, 85, 85, 85] : List Nat) =
      if (7 : Nat) < 256 then setByte (pad16 (List.replicate 16 85)) 3 7
      else pad16 (List.replicate 16 85) := by
  have he : (state_entry_create ⟨7⟩ (fr_state_tree_init 2 60) ⟨[]⟩ none 5
      (List.replicate 16 85) true).entry =
      some ⟨0, [85, 85, 85, 7, 85, 85, 85, 85, 85, 85, 85, 85, 85, 85, 85, 85],
        65, 0, none, none, []⟩ := by decide
  exact C2_amended ⟨7⟩ (fr_state_tree_init 2 60) ⟨[]⟩ none 5
    (List.replicate 16 85) true _ (by decide) he

/-! Claim C7. -/

/-- C7 counterexample: a 17-octet State value misses at lookup even
though its first 16 octets match a resident token; the claimed
truncate-and-proceed lookup would have found the entry. -/
theorem C7_counterexample :
    state_entry_find ⟨1, 2, 60, [⟨0, List.replicate 16 3, 100, 0, none, none, []⟩]⟩
        (mkStatePacket (List.replicate 16 3 ++ [9])) = none ∧
    (([⟨0, List.replicate 16 3, 100, 0, none, none, []⟩] : List StateEntry).find?
        (fun e => e.state == (List.replicate 16 3 ++ [9]).take 16)).isSome = true :=
  ⟨by decide, by decide⟩

/-- C7 amended: the table lookup is a miss for every State value whose
length differs from 16, longer ones included; the truncation (with a
warning) happens in state_entry_create, which stores only the first 16
octets of a longer caller-supplied value. -/
theorem C7_amended :
    (∀ (st : fr_state_tree_t) (p : Packet) (vp : VP),
        fr_pair_find_by_num p.vps PW_STATE = some vp →
        vp.value.asOctets.length ≠ AUTH_VECTOR_LEN →
        state_entry_find st p = none) ∧
    (∀ (cfg : MainConfig) (st : fr_state_tree_t) (packet : Packet)
        (old : Option StateEntry) (now : Nat) (rand : List Nat) (ok_ : Bool)
        (vp : VP) (e : StateEntry),
        fr_pair_find_by_num packet.vps PW_STATE = some vp →
        AUTH_VECTOR_LEN ≤ vp.value.asOctets.length →
        (state_entry_create cfg st packet old now rand ok_).entry = some e →
        e.state = vp.value.asOctets.take AUTH_VECTOR_LEN) := by
  constructor
  · intro st p vp hvp hlen
    unfold state_entry_find
    rw [hvp]
    exact if_pos hlen
  · intro cfg st packet old now rand ok_ vp e hvp hlen he
    by_cases h1 : (state_reap st now).max_sessions ≤ (state_reap st now).entries.length
    · rw [state_entry_create_full cfg st packet old now rand ok_ h1] at he
      exact absurd he (by simp)
    · cases ok_ with
      | false =>
          rw [state_entry_create_alloc_fail cfg st packet old now rand h1] at he
          exact absurd he (by simp)
      | true =>
          rw [state_entry_create_go_supplied cfg st packet old now rand vp h1 hvp] at he
          rcases state_tree_insert_cases _ _ _ with hcase | ⟨hcase, hfresh, hroom⟩ <;>
            rw [hcase] at he
          · exact absurd he (by simp)
          · simp only [Option.some.injEq] at he
            subst he
            simp [pad16_of_ge _ hlen]

/-- C7 amended, witnessed: a 3-octet value misses against a populated
table, and create stores the first 16 octets of a 17-octet value. -/
theorem C7_amended_witness :
    state_entry_find ⟨1, 2, 60, [⟨0, List.replicate 16 3, 100, 0, none, none, []⟩]⟩
        (mkStatePacket [1, 2, 3]) = none ∧
    (List.replicate 16 3 : List Nat) =
      (VPValue.octets (List.replicate 16 3 ++ [9])).asOctets.take AUTH_VECTOR_LEN := by
  constructor
  · exact C7_amended.1 _ (mkStatePacket [1, 2, 3]) ⟨PW_STATE, .octets [1, 2, 3]⟩
      (by decide) (by decide)
  · have he : (state_entry_create ⟨300⟩ (fr_state_tree_init 2 60)
        (mkStatePacket (List.replicate 16 3 ++ [9])) none 5
        (List.replicate 16 85) true).entry =
        some ⟨0, List.replicate 16 3, 65, 0, none, none, []⟩ := by decide
    exact C7_amended.2 ⟨300⟩ (fr_state_tree_init 2 60) _ none 5
      (List.replicate 16 85) true ⟨PW_STATE, .octets (List.replicate 16 3 ++ [9])⟩ _
      (by decide) (by decide) he

/-! Claim C1. -/

/-- C1 counterexample: a request with neither live state attributes nor
persistable side data.  The claim says save_to_state returns success
without touching the table; the code instead falls through, creates a
fresh entry and modifies the table. -/
theorem C1_counterexample :
    ((⟨some 9, none, []⟩ : Request).state = none ∧
     (⟨some 9, none, []⟩ : Request).data = []) ∧
    (fr_request_to_state ⟨300⟩ (fr_state_tree_init 2 60) ⟨some 9, none, []⟩ none ⟨[]⟩ 5
        (List.replicate 16 85) true).ok = true ∧
    (fr_request_to_state ⟨300⟩ (fr_state_tree_init 2 60) ⟨some 9, none, []⟩ none ⟨[]⟩ 5
        (List.replicate 16 85) true).tree ≠ fr_state_tree_init 2 60 :=
  ⟨⟨rfl, rfl⟩, by decide, by decide⟩

/-- C1 amended: save_to_state returns success with the table untouched
iff the request has live state attributes and no persistable side data
(the source condition `request->state && !data`); in every other case it
locates the prior entry from the original packet and runs create, and
succeeds exactly when create does. -/
theorem C1_amended (cfg : MainConfig) (st : fr_state_tree_t) (req : Request)
    (orig : Option Packet) (pkt : Packet) (now : Nat) (rand : List Nat) (ok_ : Bool) :
    (((fr_request_to_state cfg st req orig pkt now rand ok_).ok = true ∧
      (fr_request_to_state cfg st req orig pkt now rand ok_).tree = st) ↔
     (req.state.isSome ∧ req.data = [])) ∧
    (¬ (req.state.isSome ∧ req.data = []) →
      ((fr_request_to_state cfg st req orig pkt now rand ok_).ok = true ↔
        (state_entry_create cfg st pkt
          (find_original st orig)
          now rand ok_).entry.isSome = true)) := by
  by_cases hsc : req.state.isSome ∧ req.data = []
  · constructor
    · rw [iff_true_intro hsc, iff_true]
      simp only [fr_request_to_state]
      rw [if_pos hsc]
      exact ⟨rfl, rfl⟩
    · intro hn
      exact absurd hsc hn
  · constructor
    · rw [iff_false_intro hsc]
      simp only [fr_request_to_state]
      rw [if_neg hsc]
      cases hres : (state_entry_create cfg st pkt
          (find_original st orig)
          now rand ok_).entry with
      | none => simp
      | some e =>
          obtain ⟨pre, htree, hrest⟩ :=
            state_entry_create_some_shape cfg st pkt _ now rand ok_ e hres
          simp only [iff_false, not_and]
          intro hok htr
          have hid : st.id + 1 = st.id := by
            have h2 := congrArg fr_state_tree_t.id htr
            simpa [htree] using h2
          omega
    · intro hn
      simp only [fr_request_to_state]
      rw [if_neg hn]
      cases hres : (state_entry_create cfg st pkt
          (find_original st orig)
          now rand ok_).entry with
      | none => simp
      | some e => simp

/-- C1 amended, witnessed: the short-circuit fires at a request with
state attributes and no data, and the slow path's success tracks create
at a request with data. -/
theorem C1_amended_witness :
    ((fr_request_to_state ⟨300⟩ (fr_state_tree_init 2 60) ⟨some 9, some 4, []⟩ none ⟨[]⟩
        5 (List.replicate 16 85) true).ok = true ∧
     (fr_request_to_state ⟨300⟩ (fr_state_tree_init 2 60) ⟨some 9, some 4, []⟩ none ⟨[]⟩
        5 (List.replicate 16 85) true).tree = fr_state_tree_init 2 60) ∧
    ((fr_request_to_state ⟨300⟩ (fr_state_tree_init 2 60) ⟨some 9, none, [3]⟩ none ⟨[]⟩
        5 (List.replicate 16 85) true).ok = true ↔
     (state_entry_create ⟨300⟩ (fr_state_tree_init 2 60) ⟨[]⟩
        (find_original (fr_state_tree_init 2 60) none) 5
        (List.replicate 16 85) true).entry.isSome = true) := by
  constructor
  · exact (C1_amended ⟨300⟩ (fr_state_tree_init 2 60) ⟨some 9, some 4, []⟩ none ⟨[]⟩
      5 (List.replicate 16 85) true).1.mpr (by decide)
  · exact (C1_amended ⟨300⟩ (fr_state_tree_init 2 60) ⟨some 9, none, [3]⟩ none ⟨[]⟩
      5 (List.replicate 16 85) true).2 (by decide)

/-! Claim C6. -/

/-- C6: in the PROCESS phase of the authentication driver (interpreter
not stopped): YIELD suspends, OK stamps status Pass and goes to SEND,
HANDLED goes to SEND with the reply unchanged, and every other verdict
(FAIL, INVALID, NOOP, NOT_FOUND, REJECT, UPDATED, USERLOCK) stamps
status Fail and goes to SEND. -/
theorem C6_process_verdicts (reply : List VP) (rcode : Rcode) :
    (rcode = .yield → request_process_step .authen false rcode reply = .suspended) ∧
    (rcode = .ok → request_process_step .authen false rcode reply =
      .toSend (pair_update_reply reply attr_tacacs_authentication_status (.str "Pass"))) ∧
    (rcode = .handled → request_process_step .authen false rcode reply = .toSend reply) ∧
    (rcode = .fail ∨ rcode = .invalid ∨ rcode = .noop ∨ rcode = .notfound ∨
     rcode = .reject ∨ rcode = .updated ∨ rcode = .userlock →
      request_process_step .authen false rcode reply =
        .toSend (pair_update_reply reply attr_tacacs_authentication_status (.str "Fail"))) := by
  cases rcode <;> simp [request_process_step, tacacs_status]

/-- C6 witnessed at the UPDATED verdict and the empty reply. -/
theorem C6_witness :
    request_process_step .authen false .updated [] =
      .toSend [⟨attr_tacacs_authentication_status, .str "Fail"⟩] :=
  ((C6_process_verdicts [] .updated).2.2.2 (by decide)).trans rfl

/-! Claim C5. -/

/-- C5: in the authentication send phase, when the reply carries a
non-terminal authentication status and the inbound sequence number is
253, the machine warns, discards the table entry named by the inbound
token, frees the whole reply list, and stamps authentication status
RESTART; no entry is carried forward. -/
theorem C5_sequence_wrap (cfg : MainConfig) (st : fr_state_tree_t) (request : Request)
    (reqPacket reply : Packet) (listener session_id now : Nat) (rand : List Nat)
    (ok_ : Bool) (vp sv : VP)
    (hst : fr_pair_find_by_num reply.vps attr_tacacs_authentication_status = some vp)
    (hterm : ¬ (vp.value.vp_uint8 = TAC_PLUS_AUTHEN_STATUS_PASS ∨
      vp.value.vp_uint8 = TAC_PLUS_AUTHEN_STATUS_FAIL ∨
      vp.value.vp_uint8 = TAC_PLUS_AUTHEN_STATUS_RESTART ∨
      vp.value.vp_uint8 = TAC_PLUS_AUTHEN_STATUS_ERROR ∨
      vp.value.vp_uint8 = TAC_PLUS_AUTHEN_STATUS_FOLLOW))
    (hsv : fr_pair_find_by_num reqPacket.vps attr_tacacs_sequence_number = some sv)
    (h253 : sv.value.vp_uint8 = 253) :
    tacacs_send_state_disposition cfg .authen st request reqPacket reply listener
        session_id now rand ok_ =
      ⟨(fr_state_discard st request reqPacket).tree,
       (fr_state_discard st request reqPacket).request,
       ⟨[⟨attr_tacacs_authentication_status, .u8 TAC_PLUS_AUTHEN_STATUS_RESTART⟩]⟩,
       true, false⟩ := by
  simp only [tacacs_send_state_disposition, hst, hsv, h253, if_neg hterm]
  simp [pair_update_reply]

/-- C5 witnessed: GETUSER status, sequence number 253, one resident
entry named by the inbound token. -/
theorem C5_witness :
    tacacs_send_state_disposition ⟨300⟩ .authen
        ⟨1, 2, 60, [⟨0, List.replicate 16 3, 100, 0, none, none, []⟩]⟩
        ⟨some 1, some 2, []⟩
        ⟨[⟨attr_tacacs_sequence_number, .u8 253⟩,
          ⟨PW_STATE, .octets (List.replicate 16 3)⟩]⟩
        ⟨[⟨attr_tacacs_authentication_status, .u8 4⟩]⟩ 42 77 5
        (List.replicate 16 85) true =
      ⟨⟨1, 2, 60, []⟩, ⟨none, none, []⟩,
       ⟨[⟨attr_tacacs_authentication_status, .u8 TAC_PLUS_AUTHEN_STATUS_RESTART⟩]⟩,
       true, false⟩ := by
  have h := C5_sequence_wrap ⟨300⟩
    ⟨1, 2, 60, [⟨0, List.replicate 16 3, 100, 0, none, none, []⟩]⟩
    ⟨some 1, some 2, []⟩
    ⟨[⟨attr_tacacs_sequence_number, .u8 253⟩,
      ⟨PW_STATE, .octets (List.replicate 16 3)⟩]⟩
    ⟨[⟨attr_tacacs_authentication_status, .u8 4⟩]⟩ 42 77 5
    (List.replicate 16 85) true
    ⟨attr_tacacs_authentication_status, .u8 4⟩ ⟨attr_tacacs_sequence_number, .u8 253⟩
    (by decide) (by decide) (by decide) (by decide)
  exact h.trans (by decide)

/-- Unpacking a successful lookup: the packet carried a full-width State
value equal to the entry's token, and the entry is table-resident. -/
theorem state_entry_find_some (st : fr_state_tree_t) (p : Packet) (e : StateEntry)
    (h : state_entry_find st p = some e) :
    ∃ vp, fr_pair_find_by_num p.vps PW_STATE = some vp ∧
      vp.value.asOctets.length = AUTH_VECTOR_LEN ∧
      e.state = vp.value.asOctets ∧ e ∈ st.entries := by
  unfold state_entry_find at h
  cases hvp : fr_pair_find_by_num p.vps PW_STATE with
  | none => rw [hvp] at h; exact absurd h (by simp)
  | some vp =>
      rw [hvp] at h
      have h2 : (if vp.value.asOctets.length ≠ AUTH_VECTOR_LEN then none
          else st.entries.find? (fun x => x.state == vp.value.asOctets)) = some e := h
      by_cases hlen : vp.value.asOctets.length ≠ AUTH_VECTOR_LEN
      · rw [if_pos hlen] at h2
        exact absurd h2 (by simp)
      · rw [if_neg hlen] at h2
        refine ⟨vp, rfl, by omega, ?_, List.mem_of_find?_eq_some h2⟩
        have := List.find?_some h2
        simpa using this

/-! Claim C9. -/

/-- C9: discard is idempotent.  After one discard has removed and freed
the entry for the packet's token, a second discard of the same token
misses the lookup, leaves the table unchanged and returns without
error.  The hypothesis is the rbtree's key uniqueness. -/
theorem C9_discard_idempotent (st : fr_state_tree_t) (req : Request) (p : Packet)
    (hnd : tokensNodup st) :
    fr_state_discard (fr_state_discard st req p).tree
        (fr_state_discard st req p).request p =
      fr_state_discard st req p := by
  cases hfind : state_entry_find st p with
  | none =>
      have h1 : fr_state_discard st req p = ⟨st, req⟩ := by
        unfold fr_state_discard; rw [hfind]
      rw [h1]
      exact h1
  | some e =>
      have h1 : fr_state_discard st req p =
          ⟨state_entry_unlink st e, { req with state := none, state_ctx := none }⟩ := by
        unfold fr_state_discard; rw [hfind]
      obtain ⟨vp, hvp, hlen, hes, hmem⟩ := state_entry_find_some st p e hfind
      have hfind2 : state_entry_find (state_entry_unlink st e) p = none := by
        unfold state_entry_find
        rw [hvp]
        have hnn : ¬ vp.value.asOctets.length ≠ AUTH_VECTOR_LEN := by rw [hlen]; simp
        refine Eq.trans (if_neg hnn) ?_
        refine List.find?_eq_none.mpr ?_
        intro x hx
        have hx2 := eraseP_token_not_mem st.entries e.state hnd x hx
        simp [← hes, hx2]
      rw [h1]
      unfold fr_state_discard
      rw [hfind2]

/-- C9 witnessed on a one-entry table. -/
theorem C9_witness :
    fr_state_discard
        (fr_state_discard ⟨1, 2, 60, [⟨0, List.replicate 16 3, 100, 0, none, none, []⟩]⟩
          ⟨some 1, some 2, []⟩ (mkStatePacket (List.replicate 16 3))).tree
        (fr_state_discard ⟨1, 2, 60, [⟨0, List.replicate 16 3, 100, 0, none, none, []⟩]⟩
          ⟨some 1, some 2, []⟩ (mkStatePacket (List.replicate 16 3))).request
        (mkStatePacket (List.replicate 16 3)) =
      fr_state_discard ⟨1, 2, 60, [⟨0, List.replicate 16 3, 100, 0, none, none, []⟩]⟩
        ⟨some 1, some 2, []⟩ (mkStatePacket (List.replicate 16 3)) :=
  C9_discard_idempotent _ _ _ (by decide)

/-! Claim C10. -/

/-- C10 counterexample: max_sessions 1, one unexpired data-less prior
entry.  create fails at the first capacity check and returns NULL, but
the prior entry has not been unlinked — against the claim that on every
NULL return the data-less prior has been unlinked and freed. -/
theorem C10_counterexample :
    (state_entry_create ⟨300⟩
        ⟨1, 1, 60, [⟨0, List.replicate 16 3, 100, 0, none, none, []⟩]⟩
        ⟨[]⟩ (some ⟨0, List.replicate 16 3, 100, 0, none, none, []⟩) 50
        (List.replicate 16 85) true).entry = none ∧
    (⟨0, List.replicate 16 3, 100, 0, none, none, []⟩ : StateEntry).data = [] ∧
    (state_entry_create ⟨300⟩
        ⟨1, 1, 60, [⟨0, List.replicate 16 3, 100, 0, none, none, []⟩]⟩
        ⟨[]⟩ (some ⟨0, List.replicate 16 3, 100, 0, none, none, []⟩) 50
        (List.replicate 16 85) true).tree.entries =
      [⟨0, List.replicate 16 3, 100, 0, none, none, []⟩] :=
  ⟨by decide, rfl, by decide⟩

/-- C10 amended: whenever state_entry_create returns NULL, the expiry
reap has still happened — no expired entry remains.  The data-less prior
entry, however, has been unlinked only when the failure came after the
first capacity check (the post-reap size was below max_sessions:
allocation failure, re-checked bound, or duplicate-token insert); a
failure at the first check leaves the prior entry resident. -/
theorem C10_amended (cfg : MainConfig) (st : fr_state_tree_t) (packet : Packet)
    (old : Option StateEntry) (now : Nat) (rand : List Nat) (ok_ : Bool)
    (hs : cleanupSorted st.entries) (hnd : tokensNodup st)
    (hfail : (state_entry_create cfg st packet old now rand ok_).entry = none) :
    (∀ e ∈ (state_entry_create cfg st packet old now rand ok_).tree.entries,
        ¬ e.cleanup < now) ∧
    (∀ o, old = some o → o.data = [] →
      (state_reap st now).entries.length < st.max_sessions →
      ∀ e ∈ (state_entry_create cfg st packet old now rand ok_).tree.entries,
        e.state ≠ o.state) := by
  obtain ⟨hcases, hto, hmax⟩ :=
    state_entry_create_none_shape cfg st packet old now rand ok_ hfail
  constructor
  · intro e he
    have hsub : (state_entry_create cfg st packet old now rand ok_).tree.entries ⊆
        (state_reap st now).entries := by
      rcases hcases with hc | hc
      · rw [hc]
        exact fun x hx => hx
      · rw [hc]; exact (state_drop_old_sublist _ _).subset
    exact sorted_dropWhile_cleanup st.entries now hs e (hsub he)
  · intro o ho hdata hroom
    subst ho
    have h1 : ¬ (state_reap st now).max_sessions ≤ (state_reap st now).entries.length :=
      Nat.not_le.mpr hroom
    have hafter :=
      state_entry_create_none_after_first cfg st packet (some o) now rand ok_ h1 hfail
    intro e he
    rw [hafter] at he
    simp only [state_drop_old, if_pos hdata, state_entry_unlink] at he
    have hnd0 : (st.entries.map (fun x => x.state)).Nodup := hnd
    have hnd1 : ((state_reap st now).entries.map (fun x => x.state)).Nodup :=
      ((state_reap_sublist st now).map (fun x => x.state)).nodup hnd0
    exact eraseP_token_not_mem _ _ hnd1 e he

/-- C10 amended, witnessed at an allocation failure: the expired head
was reaped and the data-less prior unlinked; the surviving entry is
unexpired and does not carry the prior's token. -/
theorem C10_amended_witness :
    ¬ (⟨2, List.replicate 16 2, 100, 0, none, none, []⟩ : StateEntry).cleanup < 50 ∧
    (⟨2, List.replicate 16 2, 100, 0, none, none, []⟩ : StateEntry).state ≠
      (⟨1, List.replicate 16 3, 90, 0, none, none, []⟩ : StateEntry).state := by
  have h := C10_amended ⟨300⟩
    ⟨3, 5, 60, [⟨0, List.replicate 16 1, 30, 0, none, none, []⟩,
                ⟨1, List.replicate 16 3, 90, 0, none, none, []⟩,
                ⟨2, List.replicate 16 2, 100, 0, none, none, []⟩]⟩
    ⟨[]⟩ (some ⟨1, List.replicate 16 3, 90, 0, none, none, []⟩) 50
    (List.replicate 16 85) false (by decide) (by decide) (by decide)
  exact ⟨h.1 _ (by decide), h.2 _ rfl rfl (by decide) _ (by decide)⟩

/-- Lookup in a table whose tail entry carries the packet's token while
every earlier entry carries a different one. -/
theorem state_entry_find_tail (idv maxv tov : Nat) (pre : List StateEntry)
    (e : StateEntry) (p2 : Packet) (vpx : VP)
    (hvp2 : fr_pair_find_by_num p2.vps PW_STATE = some vpx)
    (htok : vpx.value.asOctets = e.state)
    (hlen : e.state.length = AUTH_VECTOR_LEN)
    (hfresh : ∀ x ∈ pre, ¬ x.state = e.state) :
    state_entry_find ⟨idv, maxv, tov, pre ++ [e]⟩ p2 = some e := by
  unfold state_entry_find
  rw [hvp2]
  have hnn : ¬ vpx.value.asOctets.length ≠ AUTH_VECTOR_LEN := by
    rw [htok, hlen]; simp
  refine Eq.trans (if_neg hnn) ?_
  refine find?_append_last pre e _ ?_ (by rw [htok]; simp)
  intro x hx
  rw [htok]
  exact beq_eq_false_iff_ne.mpr (hfresh x hx)

/-! Claim C3. -/

/-- C3: round trip.  When a request's arena handle A, session-state list
handle V and persistable data D are stored by a successful
(non-short-circuiting) save, the new tail entry holds exactly A, V and
D; a subsequent restore presented with any packet carrying that entry's
token hands exactly A and V (handle identity) and the data D back to the
request, and afterwards the entry is still table-resident with its
arena, attribute and side-data fields all null. -/
theorem C3_roundtrip (cfg : MainConfig) (st : fr_state_tree_t)
    (orig : Option Packet) (pkt : Packet) (now : Nat) (rand : List Nat) (ok_ : Bool)
    (A V : Nat) (D : List Nat) (hD : D ≠ [])
    (hok : (fr_request_to_state cfg st ⟨some A, some V, D⟩ orig pkt now rand ok_).ok
      = true) :
    ∃ e, (fr_request_to_state cfg st ⟨some A, some V, D⟩ orig pkt now rand
        ok_).tree.entries.getLast? = some e ∧
      e.ctx = some A ∧ e.vps = some V ∧ e.data = D ∧
      ∀ (req2 : Request) (p2 : Packet) (vpx : VP),
        fr_pair_find_by_num p2.vps PW_STATE = some vpx →
        vpx.value.asOctets = e.state →
        (fr_state_to_request
            (fr_request_to_state cfg st ⟨some A, some V, D⟩ orig pkt now rand ok_).tree
            req2 p2 p2).request = ⟨some A, some V, req2.data ++ D⟩ ∧
        ∃ e2, state_entry_find
            (fr_state_to_request
              (fr_request_to_state cfg st ⟨some A, some V, D⟩ orig pkt now rand ok_).tree
              req2 p2 p2).tree p2 = some e2 ∧
          e2.ctx = none ∧ e2.vps = none ∧ e2.data = [] ∧ e2.state = e.state := by
  have hsc : ¬ ((⟨some A, some V, D⟩ : Request).state.isSome ∧
      (⟨some A, some V, D⟩ : Request).data = []) := by
    intro hsc
    exact hD hsc.2
  rcases Option.eq_none_or_eq_some ((state_entry_create cfg st pkt
      (find_original st orig)
      now rand ok_).entry) with hres | ⟨e0, hres⟩
  · have : (fr_request_to_state cfg st ⟨some A, some V, D⟩ orig pkt now rand ok_).ok
        = false := by
      simp only [fr_request_to_state]
      rw [if_neg hsc, hres]
    rw [this] at hok
    exact absurd hok (by simp)
  ·
      obtain ⟨pre, htree, hsub, hfresh, hroom, hctx0, hvps0, hdata0, hcl, hsl, hid⟩ :=
        state_entry_create_some_shape cfg st pkt _ now rand ok_ e0 hres
      have hsave : fr_request_to_state cfg st ⟨some A, some V, D⟩ orig pkt now rand ok_
          = ⟨true, ⟨st.id + 1, st.max_sessions, st.timeout,
              pre ++ [⟨e0.id, e0.state, e0.cleanup, e0.tries, some A, some V, D⟩]⟩,
             ⟨none, none, []⟩,
             (state_entry_create cfg st pkt
               (find_original st orig)
               now rand ok_).packet⟩ := by
        simp only [fr_request_to_state]
        rw [if_neg hsc, hres, htree]
        simp [List.dropLast_concat]
      refine ⟨⟨e0.id, e0.state, e0.cleanup, e0.tries, some A, some V, D⟩,
        by rw [hsave]; exact List.getLast?_concat _, rfl, rfl, rfl, ?_⟩
      intro req2 p2 vpx hvp2 htok
      have hfind1 : state_entry_find
          (fr_request_to_state cfg st ⟨some A, some V, D⟩ orig pkt now rand ok_).tree p2
          = some ⟨e0.id, e0.state, e0.cleanup, e0.tries, some A, some V, D⟩ := by
        rw [hsave]
        exact state_entry_find_tail _ _ _ pre _ p2 vpx hvp2 htok hsl hfresh
      have hmap : (pre ++ [(⟨e0.id, e0.state, e0.cleanup, e0.tries, some A, some V, D⟩ :
          StateEntry)]).map (fun x =>
            if x.state == (⟨e0.id, e0.state, e0.cleanup, e0.tries, some A, some V, D⟩ :
                StateEntry).state
            then { x with ctx := none, vps := none, data := ([] : List Nat) } else x) =
          pre ++ [⟨e0.id, e0.state, e0.cleanup, e0.tries, none, none, []⟩] := by
        rw [List.map_append]
        congr 1
        · have hpre : ∀ x ∈ pre,
              (if x.state == e0.state
               then { x with ctx := none, vps := none, data := ([] : List Nat) }
               else x) = x := by
            intro x hx
            rw [if_neg]
            simp only [beq_iff_eq]
            exact hfresh x hx
          exact (List.map_congr_left hpre).trans (List.map_id pre)
        · simp
      have hrest : fr_state_to_request
          (fr_request_to_state cfg st ⟨some A, some V, D⟩ orig pkt now rand ok_).tree
          req2 p2 p2 =
          ⟨⟨st.id + 1, st.max_sessions, st.timeout,
            pre ++ [⟨e0.id, e0.state, e0.cleanup, e0.tries, none, none, []⟩]⟩,
           ⟨some A, some V, req2.data ++ D⟩⟩ := by
        unfold fr_state_to_request
        rw [hvp2, hfind1, hsave]
        simp only [hmap]
      refine ⟨by rw [hrest], ⟨e0.id, e0.state, e0.cleanup, e0.tries, none, none, []⟩,
        ?_, rfl, rfl, rfl, rfl⟩
      rw [hrest]
      exact state_entry_find_tail _ _ _ pre _ p2 vpx hvp2 htok hsl hfresh

/-- C3 witnessed: arena 11, attributes 22, side data [33] saved into an
empty table and restored with the generated (all-85) token. -/
theorem C3_witness :
    (fr_state_to_request
        (fr_request_to_state ⟨300⟩ (fr_state_tree_init 2 60) ⟨some 11, some 22, [33]⟩
          none ⟨[]⟩ 5 (List.replicate 16 85) true).tree
        ⟨none, none, []⟩ (mkStatePacket (List.replicate 16 85))
        (mkStatePacket (List.replicate 16 85))).request =
      ⟨some 11, some 22, [33]⟩ := by
  obtain ⟨e, hlast, hctx, hvps, hdata, hrest⟩ :=
    C3_roundtrip ⟨300⟩ (fr_state_tree_init 2 60) none ⟨[]⟩ 5 (List.replicate 16 85)
      true 11 22 [33] (by decide) (by decide)
  have hcomp : (fr_request_to_state ⟨300⟩ (fr_state_tree_init 2 60)
      ⟨some 11, some 22, [33]⟩ none ⟨[]⟩ 5 (List.replicate 16 85)
      true).tree.entries.getLast? =
      some ⟨0, List.replicate 16 85, 65, 0, some 11, some 22, [33]⟩ := by decide
  rw [hcomp] at hlast
  have he : e = ⟨0, List.replicate 16 85, 65, 0, some 11, some 22, [33]⟩ :=
    (Option.some.injEq _ _ ▸ hlast).symm
  subst he
  have h3 := (hrest ⟨none, none, []⟩ (mkStatePacket (List.replicate 16 85))
    ⟨PW_STATE, .octets (List.replicate 16 85)⟩ (by decide) (by decide)).1
  simpa using h3

/-! Claim C4. -/

theorem state_reap_eq_self (st : fr_state_tree_t) (now : Nat)
    (hnoexp : ∀ x ∈ st.entries, ¬ x.cleanup < now) :
    state_reap st now = st := by
  unfold state_reap
  rw [dropWhile_eq_self_of_forall _ _ (fun x hx => by simp [hnoexp x hx])]

/-- At capacity with nothing expired, create fails at the first check
and the table is untouched, whatever the packet, prior and allocator. -/
theorem create_at_capacity (cfg : MainConfig) (st : fr_state_tree_t) (p : Packet)
    (old : Option StateEntry) (now : Nat) (rand : List Nat) (ok_ : Bool)
    (hfull : st.max_sessions ≤ st.entries.length)
    (hnoexp : ∀ x ∈ st.entries, ¬ x.cleanup < now) :
    state_entry_create cfg st p old now rand ok_ = ⟨none, st, p⟩ := by
  have hreap := state_reap_eq_self st now hnoexp
  have h1 : (state_reap st now).max_sessions ≤ (state_reap st now).entries.length := by
    rw [hreap]; exact hfull
  rw [state_entry_create_full cfg st p old now rand ok_ h1, hreap]

/-- Erasing a present match shortens the list by exactly one. -/
theorem length_eraseP_of_mem {α} (l : List α) (p : α → Bool) (a : α)
    (ha : a ∈ l) (hpa : p a = true) :
    (l.eraseP p).length + 1 = l.length := by
  induction l with
  | nil => cases ha
  | cons h t ih =>
      cases hph : p h with
      | true =>
          rw [List.eraseP_cons, hph, cond_true]
          simp
      | false =>
          rw [List.eraseP_cons, hph, cond_false]
          have ha' : a ∈ t := by
            rcases List.mem_cons.mp ha with rfl | h2
            · rw [hpa] at hph; cases hph
            · exact h2
          simp only [List.length_cons]
          rw [← ih ha']

/-- find on a packet holding exactly one State pair. -/
theorem find_by_num_mkState (tok : List Nat) :
    fr_pair_find_by_num (mkStatePacket tok).vps PW_STATE =
      some ⟨PW_STATE, .octets tok⟩ := rfl

theorem state_entry_find_mkState (st : fr_state_tree_t) (tok : List Nat)
    (h16 : tok.length = AUTH_VECTOR_LEN) :
    state_entry_find st (mkStatePacket tok) =
      st.entries.find? (fun e => e.state == tok) := by
  unfold state_entry_find
  rw [find_by_num_mkState]
  exact if_neg (by simp [VPValue.asOctets, h16])

/-- A create below capacity with a fresh caller-supplied full-width
token and nothing expired succeeds, appending the entry at the tail. -/
theorem create_supplied (cfg : MainConfig) (st : fr_state_tree_t) (now : Nat)
    (rand tok : List Nat)
    (h16 : tok.length = AUTH_VECTOR_LEN)
    (hfresh : ∀ x ∈ st.entries, ¬ x.state = tok)
    (hroom : st.entries.length < st.max_sessions)
    (hnoexp : ∀ x ∈ st.entries, ¬ x.cleanup < now) :
    state_entry_create cfg st (mkStatePacket tok) none now rand true =
      ⟨some ⟨st.id, tok, now + st.timeout, 0, none, none, []⟩,
       ⟨st.id + 1, st.max_sessions, st.timeout,
        st.entries ++ [⟨st.id, tok, now + st.timeout, 0, none, none, []⟩]⟩,
       mkStatePacket tok⟩ := by
  have hreap := state_reap_eq_self st now hnoexp
  have h1 : ¬ (state_reap st now).max_sessions ≤ (state_reap st now).entries.length := by
    rw [hreap]; omega
  rw [state_entry_create_go_supplied cfg st (mkStatePacket tok) none now rand
    ⟨PW_STATE, .octets tok⟩ h1 (find_by_num_mkState tok)]
  have hdrop : state_drop_old (state_reap st now) none = st := by
    simp [state_drop_old, hreap]
  rw [hdrop]
  have hpad : pad16 (VP.value ⟨PW_STATE, VPValue.octets tok⟩).asOctets = tok := by
    show pad16 tok = tok
    exact pad16_of_length tok h16
  rw [hpad]
  unfold state_tree_insert
  rw [if_neg (Nat.not_le.mpr hroom)]
  rw [if_neg (fun hc => by
    obtain ⟨x, hx, hbeq⟩ := List.any_eq_true.mp hc
    exact hfresh x hx (beq_iff_eq.mp hbeq))]

/-- One state_entry_create per caller-supplied token, all at clock
`now`, stopping at the first failure. -/
def createAll (cfg : MainConfig) (now : Nat) (rand : List Nat) :
    fr_state_tree_t → List (List Nat) → Option fr_state_tree_t
  | st, [] => some st
  | st, t :: ts =>
      match (state_entry_create cfg st (mkStatePacket t) none now rand true).entry with
      | none => none
      | some _ =>
          createAll cfg now rand
            (state_entry_create cfg st (mkStatePacket t) none now rand true).tree ts

/-- Distinct fresh full-width tokens all fit while capacity lasts: every
create succeeds and the resident tokens afterwards are the old ones
followed by the new ones. -/
theorem createAll_spec (cfg : MainConfig) (now : Nat) (rand : List Nat) :
    ∀ (toks : List (List Nat)) (st : fr_state_tree_t),
      (∀ t ∈ toks, t.length = AUTH_VECTOR_LEN) →
      toks.Nodup →
      (∀ t ∈ toks, ∀ x ∈ st.entries, ¬ x.state = t) →
      (∀ x ∈ st.entries, ¬ x.cleanup < now) →
      st.entries.length + toks.length ≤ st.max_sessions →
      ∃ st2, createAll cfg now rand st toks = some st2 ∧
        st2.entries.map (fun e => e.state) =
          st.entries.map (fun e => e.state) ++ toks ∧
        st2.max_sessions = st.max_sessions ∧ st2.timeout = st.timeout ∧
        (∀ x ∈ st2.entries, ¬ x.cleanup < now)
  | [], st, _, _, _, hnoexp, _ => ⟨st, rfl, by simp, rfl, rfl, hnoexp⟩
  | t :: ts, st, h16, hnd, hfresh, hnoexp, hlen => by
      have hroom : st.entries.length < st.max_sessions := by
        simp only [List.length_cons] at hlen; omega
      have hcs := create_supplied cfg st now rand t (h16 t (by simp))
        (fun x hx => hfresh t (by simp) x hx) hroom hnoexp
      rw [List.nodup_cons] at hnd
      obtain ⟨st2, hrun, hmap, hmax, hto, hnx⟩ := createAll_spec cfg now rand ts
        ⟨st.id + 1, st.max_sessions, st.timeout,
         st.entries ++ [⟨st.id, t, now + st.timeout, 0, none, none, []⟩]⟩
        (fun u hu => h16 u (by simp [hu]))
        hnd.2
        (by
          intro u hu x hx
          rcases List.mem_append.mp hx with hx1 | hx2
          · exact hfresh u (by simp [hu]) x hx1
          · have hx3 : x = ⟨st.id, t, now + st.timeout, 0, none, none, []⟩ := by
              simpa using hx2
            subst hx3
            intro hts
            have ht' : t = u := hts
            exact hnd.1 (ht' ▸ hu)
          )
        (by
          intro x hx
          rcases List.mem_append.mp hx with hx1 | hx2
          · exact hnoexp x hx1
          · have hx3 : x = ⟨st.id, t, now + st.timeout, 0, none, none, []⟩ := by
              simpa using hx2
            subst hx3
            simp)
        (by simp only [List.length_append, List.length_cons, List.length_nil] at hlen ⊢
            omega)
      refine ⟨st2, ?_, ?_, hmax, hto, hnx⟩
      · unfold createAll
        rw [hcs]
        exact hrun
      · rw [hmap]
        simp

/-- C4: with max_sessions N and nothing expired, the N distinct-token
creates from an empty table all succeed; the table then holds N entries;
the next create fails whatever its packet, prior and allocator (the
TABLE_FULL path); and after one discard of a resident entry a further
create (fresh token) succeeds again. -/
theorem C4_admission (cfg : MainConfig) (N timeout now : Nat)
    (rand rand2 rand3 : List Nat) (toks : List (List Nat)) (t0 tok2 : List Nat)
    (hlenN : toks.length = N)
    (h16 : ∀ t ∈ toks, t.length = AUTH_VECTOR_LEN)
    (hnd : toks.Nodup)
    (ht0 : t0 ∈ toks)
    (h16b : tok2.length = AUTH_VECTOR_LEN)
    (hf2 : ∀ t ∈ toks, ¬ t = tok2) :
    ∃ stN, createAll cfg now rand (fr_state_tree_init N timeout) toks = some stN ∧
      stN.entries.length = N ∧
      (∀ (p : Packet) (old : Option StateEntry) (ok_ : Bool),
        (state_entry_create cfg stN p old now rand2 ok_).entry = none) ∧
      ((state_entry_create cfg
          (fr_state_discard stN emptyRequest (mkStatePacket t0)).tree
          (mkStatePacket tok2) none now rand3 true).entry).isSome = true := by
  obtain ⟨stN, hrun, hmap, hmax, hto, hnx⟩ := createAll_spec cfg now rand toks
    (fr_state_tree_init N timeout) h16 hnd
    (by intro t ht x hx; simp [fr_state_tree_init] at hx)
    (by intro x hx; simp [fr_state_tree_init] at hx)
    (by simp [fr_state_tree_init, hlenN])
  have hmax' : stN.max_sessions = N := hmax
  have hlen2 : stN.entries.length = N := by
    have h2 := congrArg List.length hmap
    simpa [hlenN, fr_state_tree_init] using h2
  refine ⟨stN, hrun, hlen2, ?_, ?_⟩
  · intro p old ok_
    rw [create_at_capacity cfg stN p old now rand2 ok_ (by omega) hnx]
  · have ht0' : t0 ∈ stN.entries.map (fun e => e.state) := by
      rw [hmap]; simp [fr_state_tree_init, ht0]
    obtain ⟨eD, heD, heDs⟩ := List.mem_map.mp ht0'
    have ht016 : t0.length = AUTH_VECTOR_LEN := h16 t0 ht0
    have hfsome : (stN.entries.find? (fun e => e.state == t0)).isSome := by
      rw [List.find?_isSome]
      exact ⟨eD, heD, by simp [heDs]⟩
    obtain ⟨eF, hfind⟩ := Option.isSome_iff_exists.mp hfsome
    have hfindw : state_entry_find stN (mkStatePacket t0) = some eF := by
      rw [state_entry_find_mkState stN t0 ht016]
      exact hfind
    have hd : (fr_state_discard stN emptyRequest (mkStatePacket t0)).tree =
        state_entry_unlink stN eF := by
      unfold fr_state_discard
      rw [hfindw]
    have heFs : eF.state = t0 := by
      have := List.find?_some hfind
      simpa using this
    have heFm : eF ∈ stN.entries := List.mem_of_find?_eq_some hfind
    have hulen : (state_entry_unlink stN eF).entries.length + 1 =
        stN.entries.length := by
      unfold state_entry_unlink
      exact length_eraseP_of_mem stN.entries (fun x => x.state == eF.state) eF heFm
        (by simp)
    have hN1 : 1 ≤ N := by
      rcases toks with _ | ⟨a, ts⟩
      · simp at ht0
      · simp at hlenN; omega
    have hsucc := create_supplied cfg (state_entry_unlink stN eF) now rand3 tok2 h16b
      (by
        intro x hx htk
        have hxm : x ∈ stN.entries :=
          (List.eraseP_sublist _).subset hx
        have : x.state ∈ stN.entries.map (fun e => e.state) :=
          List.mem_map.mpr ⟨x, hxm, rfl⟩
        rw [hmap] at this
        rcases List.mem_append.mp this with h1 | h2
        · simp [fr_state_tree_init] at h1
        · exact hf2 _ h2 htk)
      (by
        show (state_entry_unlink stN eF).entries.length < stN.max_sessions
        omega)
      (by
        intro x hx
        exact hnx x ((List.eraseP_sublist _).subset hx))
    rw [hd, hsucc]
    rfl

/-- C4 witnessed: N = 2, two distinct tokens fill the table; a third
create fails; after discarding the first entry, a fresh-token create
succeeds. -/
theorem C4_witness :
    (state_entry_create ⟨300⟩
        ((createAll ⟨300⟩ 5 (List.replicate 16 85) (fr_state_tree_init 2 60)
            [List.replicate 16 1, List.replicate 16 2]).getD (fr_state_tree_init 2 60))
        (mkStatePacket (List.replicate 16 7)) none 5 (List.replicate 16 85)
        true).entry = none ∧
    (state_entry_create ⟨300⟩
        (fr_state_discard
          ((createAll ⟨300⟩ 5 (List.replicate 16 85) (fr_state_tree_init 2 60)
              [List.replicate 16 1, List.replicate 16 2]).getD (fr_state_tree_init 2 60))
          emptyRequest (mkStatePacket (List.replicate 16 1))).tree
        (mkStatePacket (List.replicate 16 9)) none 5 (List.replicate 16 85)
        true).entry.isSome = true := by
  obtain ⟨stN, hrun, hlen, hfail, hsucc⟩ := C4_admission ⟨300⟩ 2 60 5
    (List.replicate 16 85) (List.replicate 16 85) (List.replicate 16 85)
    [List.replicate 16 1, List.replicate 16 2] (List.replicate 16 1)
    (List.replicate 16 9) rfl (by decide) (by decide) (by decide) (by decide)
    (by decide)
  have hgetD : (createAll ⟨300⟩ 5 (List.replicate 16 85) (fr_state_tree_init 2 60)
      [List.replicate 16 1, List.replicate 16 2]).getD (fr_state_tree_init 2 60)
      = stN := by
    rw [hrun]
    rfl
  rw [hgetD]
  exact ⟨hfail _ _ _, hsucc⟩

/-! Claim C8. -/

/-- One create preserves the sorted expiry order and the cleanup bound:
it reaps a prefix, possibly unlinks the prior, and links the new entry,
whose cleanup is the largest so far, at the tail. -/
theorem create_sorted_bounded (cfg : MainConfig) (st : fr_state_tree_t) (p : Packet)
    (old : Option StateEntry) (now : Nat) (rand : List Nat) (ok_ : Bool)
    (hs : cleanupSorted st.entries) (hb : cleanupBounded st now) :
    cleanupSorted (state_entry_create cfg st p old now rand ok_).tree.entries ∧
    cleanupBounded (state_entry_create cfg st p old now rand ok_).tree now ∧
    (state_entry_create cfg st p old now rand ok_).tree.timeout = st.timeout := by
  obtain ⟨mid, hsub, hcases, hto, hmax⟩ :=
    state_entry_create_tree_cases cfg st p old now rand ok_
  have hmids : cleanupSorted mid := List.Pairwise.sublist hsub hs
  have hmidb : ∀ x ∈ mid, x.cleanup ≤ now + st.timeout :=
    fun x hx => hb x (hsub.subset hx)
  rcases hcases with hc | ⟨e, hc, hcl⟩
  · refine ⟨by rw [hc]; exact hmids, ?_, hto⟩
    intro x hx
    rw [hc] at hx
    rw [hto]
    exact hmidb x hx
  · constructor
    · rw [hc]
      rw [cleanupSorted, List.pairwise_append]
      refine ⟨hmids, List.pairwise_singleton _ _, ?_⟩
      intro a ha b hb2
      have hbe : b = e := by simpa using hb2
      subst hbe
      rw [hcl]
      exact hmidb a ha
    · refine ⟨?_, hto⟩
      intro x hx
      rw [hc] at hx
      rw [hto]
      rcases List.mem_append.mp hx with h1 | h2
      · exact hmidb x h1
      · have hxe : x = e := by simpa using h2
        subst hxe
        rw [hcl]

/-- One discard preserves the sorted order and the bound. -/
theorem discard_sorted_bounded (st : fr_state_tree_t) (req : Request) (p : Packet)
    (t : Nat) (hs : cleanupSorted st.entries) (hb : cleanupBounded st t) :
    cleanupSorted (fr_state_discard st req p).tree.entries ∧
    cleanupBounded (fr_state_discard st req p).tree t := by
  obtain ⟨hsub, hto, hmax⟩ := fr_state_discard_tree st req p
  exact ⟨List.Pairwise.sublist hsub hs,
    fun x hx => by rw [hto]; exact hb x (hsub.subset hx)⟩

theorem cleanupBounded_mono (st : fr_state_tree_t) (t t2 : Nat) (h : t ≤ t2)
    (hb : cleanupBounded st t) : cleanupBounded st t2 :=
  fun x hx => le_trans (hb x hx) (by omega)

theorem runOps_sorted_aux (cfg : MainConfig) :
    ∀ (ops : List StateOp) (st : fr_state_tree_t) (t : Nat),
      cleanupSorted st.entries → cleanupBounded st t → opsMonoFrom t ops = true →
      cleanupSorted (runOps cfg st ops).entries
  | [], _, _, hs, _, _ => hs
  | .createOp p o now rand ok :: rest, st, t, hs, hb, hm => by
      simp only [opsMonoFrom, Bool.and_eq_true, decide_eq_true_eq] at hm
      obtain ⟨htn, hm2⟩ := hm
      obtain ⟨hs3, hb3, hto3⟩ := create_sorted_bounded cfg st p (find_original st o)
        now rand ok hs (cleanupBounded_mono st t now htn hb)
      exact runOps_sorted_aux cfg rest _ now hs3 hb3 hm2
  | .discardOp p :: rest, st, t, hs, hb, hm => by
      simp only [opsMonoFrom] at hm
      obtain ⟨hs3, hb3⟩ := discard_sorted_bounded st emptyRequest p t hs hb
      exact runOps_sorted_aux cfg rest _ t hs3 hb3 hm

/-- C8: starting from a fresh table, after any sequence of create and
discard operations (each create also reaping) under a clock that never
runs backward, the expiry list is non-decreasing in cleanup instants:
expiry is always now + the constant timeout and insertion is at the
tail. -/
theorem C8_expiry_sorted (cfg : MainConfig) (maxS timeoutS : Nat) (ops : List StateOp)
    (hm : opsMonoFrom 0 ops = true) :
    cleanupSorted (runOps cfg (fr_state_tree_init maxS timeoutS) ops).entries :=
  runOps_sorted_aux cfg ops (fr_state_tree_init maxS timeoutS) 0
    (by simp [fr_state_tree_init, cleanupSorted])
    (by intro x hx; simp [fr_state_tree_init] at hx) hm

/-- C8 witnessed on a four-operation history with clock 5, 9, 12. -/
theorem C8_witness :
    cleanupSorted (runOps ⟨300⟩ (fr_state_tree_init 4 60)
      [.createOp (mkStatePacket (List.replicate 16 1)) none 5 (List.replicate 16 85) true,
       .createOp ⟨[]⟩ none 9 (List.replicate 16 44) true,
       .discardOp (mkStatePacket (List.replicate 16 1)),
       .createOp (mkStatePacket (List.replicate 16 6))
         (some (mkStatePacket (List.replicate 16 44))) 12
         (List.replicate 16 3) true]).entries :=
  C8_expiry_sorted ⟨300⟩ 4 60
    [.createOp (mkStatePacket (List.replicate 16 1)) none 5 (List.replicate 16 85) true,
     .createOp ⟨[]⟩ none 9 (List.replicate 16 44) true,
     .discardOp (mkStatePacket (List.replicate 16 1)),
     .createOp (mkStatePacket (List.replicate 16 6))
       (some (mkStatePacket (List.replicate 16 44))) 12
       (List.replicate 16 3) true] (by decide)

end Freeradius
